import Mathlib

/-!
A shallow embedding of the core logic of the `proyecto_aplicado` RAG
pipeline: the overlap chunker (`src/chunking.py`), the pattern-based
metadata extractor (`src/metadata_extraction.py`) and the retrieval
benchmark (`src/benchmark.py`), together with theorems settling the
claims of the specification about them.

Python strings are modelled as `List Char` (a Python `str` is a sequence
of code points); Python integers as `Int` (arbitrary precision, and the
cursor of the chunker really does go negative); Python float values produced
by parsing decimal literals and by exact rational division as `ℚ`, and
the NDCG computation (which divides by base-2 logarithms) over `ℝ`.
Fallible operations (division, the fuel-bounded while loop) return
`Option`.
-/

/-! ## Python string primitives -/

/-- Python slice-index normalization: a negative index counts from the end
(clamped below at 0), a non-negative index is clamped above at the length. -/
def pyIdx (n : Nat) (i : Int) : Nat :=
  if i < 0 then (i + n).toNat else min i.toNat n

/-- Python slice `s[a:b]` (empty when the normalized bounds cross). -/
def pySlice (s : List Char) (a b : Int) : List Char :=
  (s.take (pyIdx s.length b)).drop (pyIdx s.length a)

/-- Python `str.rfind(c, a, b)` for a single-character needle: the highest
index `i` with `a' ≤ i < b'` (normalized bounds) and `s[i] = c`, else `-1`. -/
def pyRfind (s : List Char) (c : Char) (a b : Int) : Int :=
  let a' := pyIdx s.length a
  let b' := pyIdx s.length b
  match (List.range' a' (b' - a')).foldl
      (fun acc i => if s.getD i ' ' = c then some i else acc) none with
  | some i => (i : Int)
  | none => -1

/-- The characters Python `str.strip()` removes on ASCII text. -/
def isPySpace (c : Char) : Bool :=
  c = ' ' || c = '\t' || c = '\n' || c = '\r' || c.toNat = 11 || c.toNat = 12

/-- Python `str.strip()`. -/
def pyStrip (s : List Char) : List Char :=
  ((s.dropWhile isPySpace).reverse.dropWhile isPySpace).reverse

/-! ## `src/chunking.py`: `DocumentChunker` -/

/-- The `DocumentChunker` configuration. `__init__` stores both parameters
without any validation, so the embedded constructor is total. -/
structure DocumentChunker where
  chunk_size : Int
  overlap : Int
deriving DecidableEq, Repr

/-- `DocumentChunker.__init__`: stores the two fields, checks nothing. -/
def DocumentChunker.init (chunk_size overlap : Int) : DocumentChunker :=
  { chunk_size := chunk_size, overlap := overlap }

/-- One emitted chunk record (the dict built in `chunk_text`). -/
structure Chunk where
  id : String
  content : List Char
  start_char : Int
  end_char : Int
  length : Nat
deriving DecidableEq, Repr

/-- The `end` computation of one `chunk_text` iteration:
`end = min(start + chunk_size, len(text))`, then, when not at the final
slice, moved back to just after the last period (preferred) or newline
found strictly after `start`. -/
def chunkEnd (cfg : DocumentChunker) (text : List Char) (start : Int) : Int :=
  let n : Int := text.length
  let e0 : Int := min (start + cfg.chunk_size) n
  if e0 < n then
    let lastPeriod := pyRfind text '.' start e0
    let lastNewline := pyRfind text '\n' start e0
    if lastPeriod > start then lastPeriod + 1
    else if lastNewline > start then lastNewline + 1
    else e0
  else e0

/-- The `while start < len(text)` loop of `chunk_text`, made total with a
fuel parameter: `none` means the loop was still running when the fuel ran
out, `some` is the returned chunk list. -/
def chunkLoop (cfg : DocumentChunker) (text : List Char) (pre : String) :
    Nat → Int → Nat → List Chunk → Option (List Chunk)
  | 0, start, _, acc =>
    if start < (text.length : Int) then none else some acc.reverse
  | fuel + 1, start, cnt, acc =>
    if start < (text.length : Int) then
      let e := chunkEnd cfg text start
      let ct := pyStrip (pySlice text start e)
      if ct.isEmpty then
        chunkLoop cfg text pre fuel (e - cfg.overlap) cnt acc
      else
        chunkLoop cfg text pre fuel (e - cfg.overlap) (cnt + 1)
          ({ id := pre ++ "_chunk_" ++ Nat.repr cnt, content := ct,
             start_char := start, end_char := e, length := ct.length } :: acc)
    else
      some acc.reverse

/-- `DocumentChunker.chunk_text`, fuel-bounded. -/
def DocumentChunker.chunk_text (cfg : DocumentChunker) (text : String)
    (pre : String) (fuel : Nat) : Option (List Chunk) :=
  chunkLoop cfg text.toList pre fuel 0 0 []

/-! ## A backtracking regex engine

`src/metadata_extraction.py` matches a handful of concrete `re` patterns.
They use only literals, the classes `\d` and `\s`, concatenation,
ordered alternation, greedy `?`, greedy `*`/`+` over single-character
classes, and capture groups, so the engine below covers exactly those
constructs with the strategy of Python: leftmost match position, alternatives
tried in written order, quantifiers greedy with backtracking. Every
pattern in the source is compiled with `re.IGNORECASE`, so literals are
compared case-insensitively throughout. -/

/-- Capture groups recorded along the successful match path. -/
abbrev Groups := List (Nat × List Char)

/-- Regex abstract syntax (the fragment the patterns of the source use). -/
inductive RE where
  | lit (cs : List Char)
  | cls (p : Char → Bool)
  | seq (a b : RE)
  | alt (a b : RE)
  | opt (a : RE)
  | star (p : Char → Bool)
  | grp (i : Nat) (a : RE)

/-- Case-insensitive character comparison (`re.IGNORECASE`). -/
def ciEq (a b : Char) : Bool := a.toLower = b.toLower

/-- Strip a case-insensitive literal off the front of the input. -/
def dropLit : List Char → List Char → Option (List Char)
  | [], s => some s
  | _ :: _, [] => none
  | c :: cs, x :: xs => if ciEq c x then dropLit cs xs else none

/-- First candidate on which `f` succeeds (backtracking priority order). -/
def firstSome (f : α → Option β) : List α → Option β
  | [] => none
  | a :: rest =>
    match f a with
    | some b => some b
    | none => firstSome f rest

/-- The backtracking matcher in continuation-passing style: the
continuation receives the remaining input and the groups captured so far,
and alternatives are explored in the priority order of Python (alternation
left-first, `?` and `*` greedy). -/
def mtch : RE → List Char → Groups → (List Char → Groups → Option Groups) →
    Option Groups
  | .lit cs, s, g, k =>
    match dropLit cs s with
    | some s' => k s' g
    | none => none
  | .cls p, s, g, k =>
    match s with
    | [] => none
    | c :: s' => if p c then k s' g else none
  | .seq a b, s, g, k => mtch a s g (fun s' g' => mtch b s' g' k)
  | .alt a b, s, g, k =>
    match mtch a s g k with
    | some r => some r
    | none => mtch b s g k
  | .opt a, s, g, k =>
    match mtch a s g k with
    | some r => some r
    | none => k s g
  | .star p, s, g, k =>
    let m := (s.takeWhile p).length
    firstSome (fun i => k (s.drop i) g) ((List.range (m + 1)).reverse)
  | .grp i a, s, g, k =>
    mtch a s g (fun s' g' => k s' ((i, s.take (s.length - s'.length)) :: g'))

/-- Leftmost match: try each start position from the left; at a position,
backtracking priority decides the groups (this is `re.findall(...)[0]`,
which is all the source ever consumes). -/
def reSearch (r : RE) : List Char → Option Groups
  | [] => mtch r [] [] (fun _ g => some g)
  | s@(_ :: t) =>
    match mtch r s [] (fun _ g => some g) with
    | some g => some g
    | none => reSearch r t

/-- Captured text of group `i` on the successful path. -/
def grpGet (g : Groups) (i : Nat) : List Char :=
  match g.find? (fun p => p.1 == i) with
  | some p => p.2
  | none => []

/-- Right-associated concatenation of a pattern list. -/
def cat : List RE → RE
  | [] => .lit []
  | [r] => r
  | r :: rs => .seq r (cat rs)

def lstr (s : String) : RE := .lit s.toList

/-- `\s*` (ASCII `\s`, which is what the texts of the source exercise). -/
def ws : RE := .star isPySpace

/-- `\d+\.?\d*` (the number shape in the pH and concentration patterns). -/
def numPat : RE :=
  cat [.cls Char.isDigit, .star Char.isDigit, .opt (lstr "."), .star Char.isDigit]

/-- `0\.\d+` (the number shape in the water-activity patterns). -/
def awNumPat : RE := cat [lstr "0.", .cls Char.isDigit, .star Char.isDigit]

/-- `(?:=|:|between|of)?` (separator of the range-tier patterns). -/
def sepRange : RE := .opt (.alt (lstr "=") (.alt (lstr ":") (.alt (lstr "between") (lstr "of"))))

/-- `(?:=|:|of)?` (separator of the single-value-tier patterns). -/
def sepSingle : RE := .opt (.alt (lstr "=") (.alt (lstr ":") (lstr "of")))

/-- `(?:–|-|to)?` (the dash between the two numbers of a range). -/
def dashPat : RE := .opt (.alt (lstr "–") (.alt (lstr "-") (lstr "to")))

/-- `pH\s*(?:=|:|between|of)?\s*(\d+\.?\d*)\s*(?:–|-|to)?\s*(\d+\.?\d*)` -/
def phRangePat : RE :=
  cat [lstr "pH", ws, sepRange, ws, .grp 0 numPat, ws, dashPat, ws, .grp 1 numPat]

/-- `pH\s*(?:=|:|of)?\s*(\d+\.?\d*)` -/
def phSinglePat : RE := cat [lstr "pH", ws, sepSingle, ws, .grp 0 numPat]

/-- `(?:aW|aw|water\s*activity)` -/
def awKey : RE := .alt (lstr "aW") (.alt (lstr "aw") (cat [lstr "water", ws, lstr "activity"]))

/-- `(?:aW|aw|water\s*activity)\s*(?:=|:|between|of)?\s*(0\.\d+)\s*(?:–|-|to)?\s*(0\.\d+)` -/
def awRangePat : RE :=
  cat [awKey, ws, sepRange, ws, .grp 0 awNumPat, ws, dashPat, ws, .grp 1 awNumPat]

/-- `(?:aW|aw|water\s*activity)\s*(?:=|:|of)?\s*(0\.\d+)` -/
def awSinglePat : RE := cat [awKey, ws, sepSingle, ws, .grp 0 awNumPat]

/-- `(\d+\.?\d*)\s*(ppm|mg/kg|%|g/kg|µL/g)` -/
def concPat : RE :=
  cat [.grp 0 numPat, ws,
    .grp 1 (.alt (lstr "ppm") (.alt (lstr "mg/kg") (.alt (lstr "%") (.alt (lstr "g/kg") (lstr "µL/g")))))]

/-! ## `src/metadata_extraction.py`: `MetadataExtractor` -/

/-- `float(...)` on a string matched by `\d+\.?\d*` or `0\.\d+`: integer
digits, an optional point, fraction digits. (On every string those
patterns can capture, the `float` of Python succeeds, so the `except ValueError`
branches of the source are unreachable and the parser is total here.) -/
def digitsToNat (s : List Char) : Nat :=
  s.foldl (fun n c => 10 * n + (c.toNat - 48)) 0

def parseNum (s : List Char) : ℚ :=
  let intPart := s.takeWhile Char.isDigit
  let rest := s.dropWhile Char.isDigit
  let frac := match rest with
    | '.' :: f => f
    | _ => []
  (digitsToNat intPart : ℚ) + (digitsToNat frac : ℚ) / (10 ^ frac.length)

/-- Result of `extract_ph_range`: `{ph_min, ph_max}` or `{ph_value}`. -/
inductive PHResult where
  | range (ph_min ph_max : ℚ)
  | value (v : ℚ)
deriving DecidableEq, Repr

/-- Result of `extract_aw`: `{aw_min, aw_max}` or `{aw_value}`. -/
inductive AWResult where
  | range (aw_min aw_max : ℚ)
  | value (v : ℚ)
deriving DecidableEq, Repr

/-- Result of `extract_concentration`. -/
structure Concentration where
  concentration_value : ℚ
  concentration_unit : List Char
deriving DecidableEq, Repr

/-- `MetadataExtractor.extract_ph_range`: try the two-number pattern
first; else the one-number pattern, whose *string* capture is tested with
`len(matches[0]) == 2`, so a two-character capture such as `"42"` is
(mis)read as a pair of one-character numbers — the embedding keeps that
quirk. -/
def extract_ph_range (text : List Char) : Option PHResult :=
  match reSearch phRangePat text with
  | some g => some (.range (parseNum (grpGet g 0)) (parseNum (grpGet g 1)))
  | none =>
    match reSearch phSinglePat text with
    | some g =>
      let m := grpGet g 0
      if m.length = 2 then
        some (.range (parseNum [m.getD 0 '0']) (parseNum [m.getD 1 '0']))
      else some (.value (parseNum m))
    | none => none

/-- `MetadataExtractor.extract_aw` (same two-tier shape as the pH rule). -/
def extract_aw (text : List Char) : Option AWResult :=
  match reSearch awRangePat text with
  | some g => some (.range (parseNum (grpGet g 0)) (parseNum (grpGet g 1)))
  | none =>
    match reSearch awSinglePat text with
    | some g =>
      let m := grpGet g 0
      if m.length = 2 then
        some (.range (parseNum [m.getD 0 '0']) (parseNum [m.getD 1 '0']))
      else some (.value (parseNum m))
    | none => none

/-- `MetadataExtractor.extract_concentration`: first match of the
number-unit pattern; the unit is the captured text as it appears. -/
def extract_concentration (text : List Char) : Option Concentration :=
  match reSearch concPat text with
  | some g => some ⟨parseNum (grpGet g 0), grpGet g 1⟩
  | none => none

/-- The fixed organism list of `MetadataExtractor.__init__`. -/
def microorganisms : List String :=
  ["Zygosaccharomyces bailii", "E. coli", "Salmonella", "Listeria",
   "Staphylococcus aureus", "Clostridium", "Pseudomonas", "Bacillus",
   "levadura", "bacteria", "hongo", "moho", "patógeno"]

/-- The fixed preservative list of `MetadataExtractor.extract_conservant`. -/
def conservantNames : List String :=
  ["benzoato", "sorbato", "nisina", "extracto", "aceite esencial",
   "essential oil", "eugenol", "carvacrol", "timol", "ácido sórbico",
   "ácido benzoico"]

/-- `a.startswith(b)` on character lists. -/
def startsWithList : List Char → List Char → Bool
  | [], _ => true
  | _ :: _, [] => false
  | a :: as_, b :: bs => a = b && startsWithList as_ bs

/-- the substring test of Python `needle in hay`. -/
def substringOf (needle : List Char) : List Char → Bool
  | [] => needle.isEmpty
  | s@(_ :: t) => startsWithList needle s || substringOf needle t

/-- `name.lower() in text.lower()`. -/
def pyContains (text : List Char) (name : String) : Bool :=
  substringOf (name.toList.map Char.toLower) (text.map Char.toLower)

/-- `MetadataExtractor.extract_microorganism`: every list entry occurring
in the text, in list order; an empty collection is `None`. -/
def extract_microorganism (text : List Char) : Option (List String) :=
  let found := microorganisms.filter (pyContains text)
  if found.isEmpty then none else some found

/-- `MetadataExtractor.extract_conservant` (same mechanism). -/
def extract_conservant (text : List Char) : Option (List String) :=
  let found := conservantNames.filter (pyContains text)
  if found.isEmpty then none else some found

/-- The `metadata` dict built inside `extract_chunk_metadata`. -/
structure ExtractedMetadata where
  ph : Option PHResult
  aw : Option AWResult
  concentration : Option Concentration
  microorganisms : Option (List String)
  conservants : Option (List String)
  has_numeric_data : Bool
deriving DecidableEq, Repr

/-- The metadata record extracted from a text (`has_numeric_data` is the
truthiness of the concentration result). -/
def extractMetadata (text : List Char) : ExtractedMetadata :=
  { ph := extract_ph_range text
    aw := extract_aw text
    concentration := extract_concentration text
    microorganisms := extract_microorganism text
    conservants := extract_conservant text
    has_numeric_data := (extract_concentration text).isSome }

/-- A chunk record as `extract_chunk_metadata` sees it: the fields it
reads (`content`) and writes (`extracted_metadata`), plus `id` standing
for the untouched remainder of the dict. -/
structure ChunkRec where
  id : String
  content : List Char
  extracted_metadata : Option ExtractedMetadata
deriving DecidableEq, Repr

/-- `MetadataExtractor.extract_chunk_metadata`: a fresh record equal to
the input with `extracted_metadata` set from the content. -/
def extract_chunk_metadata (c : ChunkRec) : ChunkRec :=
  { c with extracted_metadata := some (extractMetadata c.content) }

/-! ## `src/benchmark.py`: `RAGBenchmark`

The metric functions read exactly one key, `r["id"]`, off each retrieved
document, so a retrieved document is embedded as that id. the `/` of Python is
true division and raises on a zero divisor, so division is modelled as the
fallible `pydiv`; the decimal values these metrics produce live in `ℚ`,
while NDCG, which divides by base-2 logarithms, is modelled over `ℝ`. -/

/-- A retrieved document, reduced to the one field the metrics read. -/
structure RDoc where
  id : String
deriving DecidableEq, Repr

/-- Python division: fails (raises `ZeroDivisionError`) on divisor 0. -/
def pydiv (a b : ℚ) : Option ℚ := if b = 0 then none else some (a / b)

/-- `RAGBenchmark.calculate_precision_at_k`. -/
def calculate_precision_at_k (retrieved : List RDoc) (relevant : List String)
    (k : Nat) : Option ℚ :=
  let retrieved_ids := (retrieved.take k).map RDoc.id
  let relevant_retrieved := retrieved_ids.countP (fun rid => decide (rid ∈ relevant))
  if 0 < k then pydiv relevant_retrieved k else some 0

/-- `RAGBenchmark.calculate_recall_at_k`. -/
def calculate_recall_at_k (retrieved : List RDoc) (relevant : List String)
    (k : Nat) : Option ℚ :=
  let retrieved_ids := (retrieved.take k).map RDoc.id
  let relevant_retrieved := retrieved_ids.countP (fun rid => decide (rid ∈ relevant))
  if 0 < relevant.length then pydiv relevant_retrieved relevant.length else some 0

/-- The `for rank, result in enumerate(retrieved, 1)` loop of
`calculate_mrr`: return `1/rank` at the first relevant hit, `0` after a
full scan. -/
def mrrLoop (relevant : List String) : List RDoc → Nat → Option ℚ
  | [], _ => some 0
  | r :: rest, rank =>
    if r.id ∈ relevant then pydiv 1 rank else mrrLoop relevant rest (rank + 1)

/-- `RAGBenchmark.calculate_mrr`. -/
def calculate_mrr (retrieved : List RDoc) (relevant : List String) : Option ℚ :=
  mrrLoop relevant retrieved 1

/-- The DCG accumulation loop of `calculate_ndcg`: a relevant id at rank
`r` (1-based) contributes `1 / log2(r + 1)`. -/
noncomputable def dcgLoop (relevant : List String) : List RDoc → Nat → ℝ
  | [], _ => 0
  | r :: rest, rank =>
    (if r.id ∈ relevant then 1 / Real.logb 2 ((rank : ℝ) + 1) else 0) +
      dcgLoop relevant rest (rank + 1)

/-- The ideal DCG of `calculate_ndcg`: the same discounts summed over
ranks `1 .. min(len(relevant), k)`. -/
noncomputable def idcg (relevant : List String) (k : Nat) : ℝ :=
  ∑ r ∈ Finset.range (min relevant.length k), 1 / Real.logb 2 ((r : ℝ) + 2)

/-- `RAGBenchmark.calculate_ndcg`: `dcg / idcg` when `idcg > 0`, else 0. -/
noncomputable def calculate_ndcg (retrieved : List RDoc) (relevant : List String)
    (k : Nat) : ℝ :=
  let dcg := dcgLoop relevant (retrieved.take k) 1
  if 0 < idcg relevant k then dcg / idcg relevant k else 0

/-- One per-query record appended to `self.results` by `evaluate_query`
(all metric values are Python floats there, modelled in `ℝ`). -/
structure MetricRecord where
  query : String
  num_relevant : Nat
  num_retrieved : Nat
  precision_at_5 : ℝ
  precision_at_10 : ℝ
  recall_at_5 : ℝ
  recall_at_10 : ℝ
  mrr : ℝ
  ndcg_at_5 : ℝ
  ndcg_at_10 : ℝ
  avg_similarity_score : ℝ

/-- `np.mean` of a list of floats. -/
noncomputable def npMean (l : List ℝ) : ℝ := l.sum / l.length

/-- Python `round(x, 4)`: round half to even at the fourth decimal. -/
noncomputable def round4 (x : ℝ) : ℝ :=
  let y := x * 10000
  ((if Int.fract y = 1 / 2 then (if Even ⌊y⌋ then ⌊y⌋ else ⌊y⌋ + 1) else round y : ℤ) : ℝ) /
    10000

/-- The aggregate mapping built by `get_aggregated_metrics` (every float
field rounded to 4 decimals; the query count is an int and stays exact). -/
structure Aggregated where
  total_queries : Nat
  avg_precision_at_5 : ℝ
  avg_precision_at_10 : ℝ
  avg_recall_at_5 : ℝ
  avg_recall_at_10 : ℝ
  avg_mrr : ℝ
  avg_ndcg_at_5 : ℝ
  avg_ndcg_at_10 : ℝ
  avg_similarity_score : ℝ

/-- The mutable session state of the benchmark: the append-only `self.results`. -/
structure BenchState where
  results : List MetricRecord

/-- `RAGBenchmark.get_aggregated_metrics`, in state-passing form: the
method reads `self.results` and writes nothing, so the state component of
the result is the input state. With zero accumulated records it returns
the explicit error record `{"error": "No results to aggregate"}` instead
of an aggregate, embedded as the `Except.error` outcome. -/
noncomputable def get_aggregated_metrics (st : BenchState) :
    Except String Aggregated × BenchState :=
  if st.results.isEmpty then (.error "No results to aggregate", st)
  else
    (.ok
      { total_queries := st.results.length
        avg_precision_at_5 := round4 (npMean (st.results.map MetricRecord.precision_at_5))
        avg_precision_at_10 := round4 (npMean (st.results.map MetricRecord.precision_at_10))
        avg_recall_at_5 := round4 (npMean (st.results.map MetricRecord.recall_at_5))
        avg_recall_at_10 := round4 (npMean (st.results.map MetricRecord.recall_at_10))
        avg_mrr := round4 (npMean (st.results.map MetricRecord.mrr))
        avg_ndcg_at_5 := round4 (npMean (st.results.map MetricRecord.ndcg_at_5))
        avg_ndcg_at_10 := round4 (npMean (st.results.map MetricRecord.ndcg_at_10))
        avg_similarity_score := round4 (npMean (st.results.map MetricRecord.avg_similarity_score)) },
      st)

/-! ## Helper lemmas -/

theorem mrrLoop_no_hit (relevant : List String) :
    ∀ (l : List RDoc) (rank : Nat), (∀ r ∈ l, r.id ∉ relevant) →
      mrrLoop relevant l rank = some 0 := by
  intro l
  induction l with
  | nil => intro rank _; rfl
  | cons r rest ih =>
    intro rank h
    have hr : r.id ∉ relevant := h r (List.mem_cons_self r rest)
    simp only [mrrLoop, if_neg hr]
    exact ih (rank + 1) (fun x hx => h x (List.mem_cons_of_mem r hx))

theorem mrrLoop_dedup (relevant : List String) :
    ∀ (l : List RDoc) (rank : Nat),
      mrrLoop relevant.dedup l rank = mrrLoop relevant l rank := by
  intro l
  induction l with
  | nil => intro rank; rfl
  | cons r rest ih => intro rank; simp only [mrrLoop, List.mem_dedup, ih]

theorem pyIdx_zero (n : Nat) : pyIdx n 0 = 0 := by
  simp [pyIdx]

theorem pyIdx_length (n : Nat) : pyIdx n (n : Int) = n := by
  unfold pyIdx
  rw [if_neg (by omega)]
  simp

theorem pySlice_full (l : List Char) : pySlice l 0 (l.length : Int) = l := by
  simp [pySlice, pyIdx_zero, pyIdx_length]

theorem chunkEnd_last (cfg : DocumentChunker) (l : List Char)
    (h : (l.length : Int) ≤ cfg.chunk_size) :
    chunkEnd cfg l 0 = (l.length : Int) := by
  simp only [chunkEnd, zero_add, min_eq_right h]
  rw [if_neg (lt_irrefl _)]

theorem chunkLoop_at_length (cfg : DocumentChunker) (l : List Char) (pre : String) :
    ∀ (fuel cnt : Nat) (acc : List Chunk),
      chunkLoop cfg l pre fuel (l.length : Int) cnt acc = some acc.reverse := by
  intro fuel cnt acc
  cases fuel with
  | zero => rw [chunkLoop, if_neg (lt_irrefl _)]
  | succ n => rw [chunkLoop, if_neg (lt_irrefl _)]

/-! ## Claims about the chunker -/

/-- C1 fails on the code: with the default configuration
(`chunk_size = 500`, `overlap = 50`), which satisfies the claimed
precondition `0 ≤ overlap < chunk_size`, the segmentation loop never
terminates on the two-character text `"ab"`: once `end` reaches
`len(text)`, the update `start = end - overlap` recomputes the same
cursor forever, so every fuel bound is exhausted. -/
theorem chunk_text_nonterminating (fuel : Nat) (pre : String) :
    DocumentChunker.chunk_text ⟨500, 50⟩ "ab" pre fuel = none := by
  have stuck : ∀ (n cnt : Nat) (acc : List Chunk),
      chunkLoop ⟨500, 50⟩ ['a', 'b'] pre n (-48) cnt acc = none := by
    intro n
    induction n with
    | zero => intro cnt acc; rfl
    | succ m ih =>
      intro cnt acc
      have h : chunkLoop ⟨500, 50⟩ ['a', 'b'] pre (m + 1) (-48) cnt acc =
          chunkLoop ⟨500, 50⟩ ['a', 'b'] pre m (-48) (cnt + 1)
            ({ id := pre ++ "_chunk_" ++ Nat.repr cnt, content := ['a', 'b'],
               start_char := -48, end_char := 2, length := 2 } :: acc) := rfl
      rw [h]
      exact ih (cnt + 1) _
  cases fuel with
  | zero => rfl
  | succ n =>
    have h : DocumentChunker.chunk_text ⟨500, 50⟩ "ab" pre (n + 1) =
        chunkLoop ⟨500, 50⟩ ['a', 'b'] pre n (-48) 1
          [{ id := pre ++ "_chunk_" ++ Nat.repr 0, content := ['a', 'b'],
             start_char := 0, end_char := 2, length := 2 }] := rfl
    rw [h]
    exact stuck n 1 _

/-- C4 fails on the code: the constructor stores `chunk_size = 3`,
`overlap = 5` (an invalid configuration) without complaint, and
segmentation of the empty text under it completes normally with the
empty chunk sequence instead of failing fast with an error. -/
theorem config_error_counterexample :
    DocumentChunker.chunk_text (DocumentChunker.init 3 5) "" "" 1 = some [] := rfl

/-- C4 amended: no validation exists: `__init__` accepts any parameters,
and a call under an invalid configuration (`overlap >= chunk_size` or
`chunk_size <= 0`) does not fail fast — on the empty text it returns the
empty chunk sequence normally, with no error at any point. -/
theorem config_never_validated :
    ∀ (chunk_size overlap : Int) (pre : String) (fuel : Nat),
      chunk_size ≤ overlap ∨ chunk_size ≤ 0 →
      DocumentChunker.chunk_text (DocumentChunker.init chunk_size overlap)
        "" pre fuel = some [] := by
  intro cs ov pre fuel _
  cases fuel with
  | zero => rfl
  | succ n => rfl

/-- C4 amended witness: an invalid configuration, accepted silently. -/
theorem config_never_validated_witness :
    ((3 : Int) ≤ 7 ∨ (3 : Int) ≤ 0) ∧
      DocumentChunker.chunk_text (DocumentChunker.init 3 7) "" "p" 9 = some [] :=
  ⟨Or.inl (by norm_num), config_never_validated 3 7 "p" 9 (Or.inl (by norm_num))⟩

/-- C6 fails on the code as stated: the whitespace-only text `" "` is
non-empty and shorter than `chunk_size = 5` under the valid configuration
`(5, 0)`, yet `chunk_text` returns zero chunks, because the stripped
slice is empty and is never emitted. -/
theorem chunk_edge_counterexample :
    DocumentChunker.chunk_text ⟨5, 0⟩ " " "" 10 = some [] := rfl

/-- C6 amended: the empty text yields the empty chunk sequence, and a
text whose strip is non-empty, strictly shorter than `chunk_size`, with
`overlap = 0`, yields exactly one chunk covering `[0, len(text))` whose
content is the stripped text. (A whitespace-only text yields zero
chunks, and with `overlap > 0` the call does not terminate at all — see
the C1 finding.) -/
theorem chunk_text_edge_cases :
    (∀ (cfg : DocumentChunker) (pre : String) (fuel : Nat),
        cfg.chunk_text "" pre fuel = some []) ∧
    (∀ (cfg : DocumentChunker) (text pre : String) (fuel : Nat),
        cfg.overlap = 0 → 0 < text.toList.length →
        (text.toList.length : Int) < cfg.chunk_size →
        pyStrip text.toList ≠ [] → 1 ≤ fuel →
        cfg.chunk_text text pre fuel =
          some [{ id := pre ++ "_chunk_" ++ Nat.repr 0,
                  content := pyStrip text.toList, start_char := 0,
                  end_char := (text.toList.length : Int),
                  length := (pyStrip text.toList).length }]) := by
  constructor
  · intro cfg pre fuel
    cases fuel with
    | zero => rfl
    | succ n => rfl
  · intro cfg text pre fuel hov hpos hlt hstrip hfuel
    obtain ⟨n', rfl⟩ : ∃ n', fuel = n' + 1 := ⟨fuel - 1, by omega⟩
    have hlen : (0 : Int) < (text.toList.length : Int) := by exact_mod_cast hpos
    have he : chunkEnd cfg text.toList 0 = (text.toList.length : Int) :=
      chunkEnd_last cfg text.toList (le_of_lt hlt)
    have hemp : (pyStrip text.toList).isEmpty = false := by
      cases hq : pyStrip text.toList with
      | nil => exact absurd hq hstrip
      | cons a t => rfl
    show chunkLoop cfg text.toList pre (n' + 1) 0 0 [] = _
    rw [chunkLoop, if_pos hlen]
    simp only [he, pySlice_full, hemp, hov, sub_zero, Bool.false_eq_true, if_false,
      zero_add]
    rw [chunkLoop_at_length]
    rfl

/-- C6 amended witness: `"abc"` with configuration `(5, 0)`. -/
theorem chunk_text_edge_cases_witness :
    DocumentChunker.chunk_text ⟨5, 0⟩ "abc" "d" 10 =
      some [{ id := "d" ++ "_chunk_" ++ Nat.repr 0, content := pyStrip "abc".toList,
              start_char := 0, end_char := ("abc".toList.length : Int),
              length := (pyStrip "abc".toList).length }] :=
  chunk_text_edge_cases.2 ⟨5, 0⟩ "abc" "d" 10 rfl (by decide) (by decide)
    (by decide) (by decide)

/-! ## Claims about the extractor -/

/-- C2 fails on the code: evaluating the extractor on the example sentence of the
specification. The two-number acidity pattern makes every separator
between its two numbers optional, so it splits the single literal `4.2`
into the captures `"4."` and `"2"` and the code reports the range
`{ph_min: 4.0, ph_max: 2.0}` — not the scalar `4.2` the claim requires.
The other four claimed fields come out as claimed. -/
theorem extract_example_evaluated :
    extractMetadata
        ("pH 4.2 aW 0.97, 800 ppm Sodium Benzoate inhibits Zygosaccharomyces bailii".toList) =
      { ph := some (.range 4 2), aw := some (.value (97 / 100)),
        concentration := some ⟨800, ['p', 'p', 'm']⟩,
        microorganisms := some ["Zygosaccharomyces bailii"], conservants := none,
        has_numeric_data := true } := by
  have hph : extract_ph_range
      ("pH 4.2 aW 0.97, 800 ppm Sodium Benzoate inhibits Zygosaccharomyces bailii".toList) =
      some (.range (parseNum ['4', '.']) (parseNum ['2'])) := rfl
  have haw : extract_aw
      ("pH 4.2 aW 0.97, 800 ppm Sodium Benzoate inhibits Zygosaccharomyces bailii".toList) =
      some (.value (parseNum ['0', '.', '9', '7'])) := rfl
  have hconc : extract_concentration
      ("pH 4.2 aW 0.97, 800 ppm Sodium Benzoate inhibits Zygosaccharomyces bailii".toList) =
      some ⟨parseNum ['8', '0', '0'], ['p', 'p', 'm']⟩ := rfl
  have hmic : extract_microorganism
      ("pH 4.2 aW 0.97, 800 ppm Sodium Benzoate inhibits Zygosaccharomyces bailii".toList) =
      some ["Zygosaccharomyces bailii"] := rfl
  have hcon : extract_conservant
      ("pH 4.2 aW 0.97, 800 ppm Sodium Benzoate inhibits Zygosaccharomyces bailii".toList) =
      none := rfl
  have hn1 : parseNum ['4', '.'] = 4 := by
    rw [show parseNum ['4', '.'] = ((4 : ℕ) : ℚ) + ((0 : ℕ) : ℚ) / (10 : ℚ) ^ (0 : ℕ)
      from rfl]
    norm_num
  have hn2 : parseNum ['2'] = 2 := by
    rw [show parseNum ['2'] = ((2 : ℕ) : ℚ) + ((0 : ℕ) : ℚ) / (10 : ℚ) ^ (0 : ℕ)
      from rfl]
    norm_num
  have hn3 : parseNum ['0', '.', '9', '7'] = 97 / 100 := by
    rw [show parseNum ['0', '.', '9', '7'] =
      ((0 : ℕ) : ℚ) + ((97 : ℕ) : ℚ) / (10 : ℚ) ^ (2 : ℕ) from rfl]
    norm_num
  have hn4 : parseNum ['8', '0', '0'] = 800 := by
    rw [show parseNum ['8', '0', '0'] = ((800 : ℕ) : ℚ) + ((0 : ℕ) : ℚ) / (10 : ℚ) ^ (0 : ℕ)
      from rfl]
    norm_num
  rw [extractMetadata, hph, haw, hconc, hmic, hcon, hn1, hn2, hn3, hn4]
  rfl

/-! ## NDCG rank monotonicity infrastructure -/

/-- Swap the retrieved documents at ranks `i` and `j` (0-based). -/
def swapRanks (l : List RDoc) (i j : Nat) : List RDoc :=
  (l.set i (l.getD j ⟨""⟩)).set j (l.getD i ⟨""⟩)

/-- The DCG discount at 0-based position `m` (rank `m + 1`). -/
noncomputable def disc (m : Nat) : ℝ := 1 / Real.logb 2 ((m : ℝ) + 2)

theorem logb_discount_pos (m : Nat) : 0 < Real.logb 2 ((m : ℝ) + 2) := by
  have h0 : (0 : ℝ) ≤ (m : ℝ) := Nat.cast_nonneg m
  exact Real.logb_pos (by norm_num) (by linarith)

theorem disc_pos (m : Nat) : 0 < disc m :=
  div_pos one_pos (logb_discount_pos m)

theorem disc_antitone {i j : Nat} (h : i ≤ j) : disc j ≤ disc i := by
  have hc : ((i : ℝ)) + 2 ≤ ((j : ℝ)) + 2 := by
    have : ((i : ℝ)) ≤ ((j : ℝ)) := by exact_mod_cast h
    linarith
  have h0 : (0 : ℝ) < (i : ℝ) + 2 := by
    have : (0 : ℝ) ≤ (i : ℝ) := Nat.cast_nonneg i
    linarith
  exact one_div_le_one_div_of_le (logb_discount_pos i)
    (Real.logb_le_logb_of_le (by norm_num) h0 hc)

theorem length_swapRanks (l : List RDoc) (i j : Nat) :
    (swapRanks l i j).length = l.length := by
  simp [swapRanks]

theorem getD_swapRanks_left (l : List RDoc) {i j : Nat} (hi : i < l.length)
    (hij : i ≠ j) : (swapRanks l i j).getD i ⟨""⟩ = l.getD j ⟨""⟩ := by
  simp only [swapRanks, List.getD_eq_getElem?_getD]
  rw [List.getElem?_set_ne (Ne.symm hij), List.getElem?_set_self hi]
  rfl

theorem getD_swapRanks_right (l : List RDoc) {i j : Nat} (hj : j < l.length) :
    (swapRanks l i j).getD j ⟨""⟩ = l.getD i ⟨""⟩ := by
  simp only [swapRanks, List.getD_eq_getElem?_getD]
  rw [List.getElem?_set_self (by simpa using hj)]
  rfl

theorem getD_swapRanks_other (l : List RDoc) {i j m : Nat} (hmi : m ≠ i)
    (hmj : m ≠ j) : (swapRanks l i j).getD m ⟨""⟩ = l.getD m ⟨""⟩ := by
  simp only [swapRanks, List.getD_eq_getElem?_getD]
  rw [List.getElem?_set_ne (Ne.symm hmj), List.getElem?_set_ne (Ne.symm hmi)]

theorem dcgLoop_eq_sum (relevant : List String) :
    ∀ (l : List RDoc) (r0 : Nat),
      dcgLoop relevant l r0 = ∑ m ∈ Finset.range l.length,
        (if (l.getD m ⟨""⟩).id ∈ relevant then
          1 / Real.logb 2 (((r0 + m : Nat) : ℝ) + 1) else 0) := by
  intro l
  induction l with
  | nil => intro r0; simp [dcgLoop]
  | cons x xs ih =>
    intro r0
    rw [dcgLoop, ih (r0 + 1), List.length_cons, Finset.sum_range_succ', add_comm]
    congr 1
    apply Finset.sum_congr rfl
    intro m _
    rw [List.getD_cons_succ]
    have harith : r0 + 1 + m = r0 + (m + 1) := by omega
    rw [harith]

theorem dcg_take_eq_sum (relevant : List String) (l : List RDoc) (k : Nat) :
    dcgLoop relevant (l.take k) 1 = ∑ m ∈ Finset.range (min k l.length),
      (if (l.getD m ⟨""⟩).id ∈ relevant then disc m else 0) := by
  rw [dcgLoop_eq_sum, List.length_take]
  apply Finset.sum_congr rfl
  intro m hm
  have hmk : m < min k l.length := Finset.mem_range.mp hm
  have h1 : (l.take k).getD m ⟨""⟩ = l.getD m ⟨""⟩ := by
    rw [List.getD_eq_getElem?_getD, List.getD_eq_getElem?_getD,
      List.getElem?_take_of_lt (lt_of_lt_of_le hmk (min_le_left k _))]
  have h2 : (((1 + m : Nat) : ℝ)) + 1 = (m : ℝ) + 2 := by push_cast; ring
  rw [h1, h2, disc]

theorem sum_swapRanks_le (relevant : List String) (l : List RDoc) (i j M : Nat)
    (hij : i < j) (hj : j < l.length)
    (hni : (l.getD i ⟨""⟩).id ∉ relevant) (hrj : (l.getD j ⟨""⟩).id ∈ relevant) :
    (∑ m ∈ Finset.range M, if (l.getD m ⟨""⟩).id ∈ relevant then disc m else 0) ≤
      ∑ m ∈ Finset.range M,
        if ((swapRanks l i j).getD m ⟨""⟩).id ∈ relevant then disc m else 0 := by
  have hi : i < l.length := lt_trans hij hj
  rcases lt_or_le j M with hjM | hjM
  · -- both positions inside the scored window
    have hiM : i < M := lt_trans hij hjM
    have hjR : j ∈ Finset.range M := Finset.mem_range.mpr hjM
    have hiR : i ∈ (Finset.range M).erase j :=
      Finset.mem_erase.mpr ⟨hij.ne, Finset.mem_range.mpr hiM⟩
    rw [← Finset.add_sum_erase _ _ hjR, ← Finset.add_sum_erase _ _ hiR]
    conv_rhs => rw [← Finset.add_sum_erase _ _ hjR, ← Finset.add_sum_erase _ _ hiR]
    have hS : (∑ m ∈ ((Finset.range M).erase j).erase i,
        if (l.getD m ⟨""⟩).id ∈ relevant then disc m else 0) =
        ∑ m ∈ ((Finset.range M).erase j).erase i,
          if ((swapRanks l i j).getD m ⟨""⟩).id ∈ relevant then disc m else 0 := by
      apply Finset.sum_congr rfl
      intro m hm
      have hmi : m ≠ i := (Finset.mem_erase.mp hm).1
      have hmj : m ≠ j := (Finset.mem_erase.mp (Finset.mem_erase.mp hm).2).1
      rw [getD_swapRanks_other l hmi hmj]
    rw [if_pos hrj, if_neg hni, getD_swapRanks_right l hj, getD_swapRanks_left l hi hij.ne,
      if_neg hni, if_pos hrj, hS]
    have := disc_antitone (le_of_lt hij)
    linarith
  · rcases lt_or_le i M with hiM | hiM
    · -- only the earlier position is inside the window
      have hiR : i ∈ Finset.range M := Finset.mem_range.mpr hiM
      rw [← Finset.add_sum_erase _ _ hiR]
      conv_rhs => rw [← Finset.add_sum_erase _ _ hiR]
      have hS : (∑ m ∈ (Finset.range M).erase i,
          if (l.getD m ⟨""⟩).id ∈ relevant then disc m else 0) =
          ∑ m ∈ (Finset.range M).erase i,
            if ((swapRanks l i j).getD m ⟨""⟩).id ∈ relevant then disc m else 0 := by
        apply Finset.sum_congr rfl
        intro m hm
        have hmi : m ≠ i := (Finset.mem_erase.mp hm).1
        have hmM : m < M := Finset.mem_range.mp (Finset.mem_erase.mp hm).2
        have hmj : m ≠ j := by omega
        rw [getD_swapRanks_other l hmi hmj]
      rw [if_neg hni, getD_swapRanks_left l hi hij.ne, if_pos hrj, hS]
      have := disc_pos i
      linarith
    · -- both positions outside the window: the sums agree
      apply le_of_eq
      apply Finset.sum_congr rfl
      intro m hm
      have hmM : m < M := Finset.mem_range.mp hm
      have hmi : m ≠ i := by omega
      have hmj : m ≠ j := by omega
      rw [getD_swapRanks_other l hmi hmj]

/-- C9: moving a relevant id to an earlier rank — swapping it with a
non-relevant document retrieved before it — never decreases NDCG@k:
the discount at the earlier rank is at least the discount at the later
one, every other DCG term is unchanged, and the ideal DCG does not
depend on the retrieved order. -/
theorem ndcg_swap_earlier_mono :
    ∀ (l : List RDoc) (relevant : List String) (k i j : Nat),
      0 < k → i < j → j < l.length →
      (l.getD i ⟨""⟩).id ∉ relevant → (l.getD j ⟨""⟩).id ∈ relevant →
      calculate_ndcg l relevant k ≤ calculate_ndcg (swapRanks l i j) relevant k := by
  intro l relevant k i j _ hij hj hni hrj
  by_cases hpos : 0 < idcg relevant k
  · simp only [calculate_ndcg, if_pos hpos]
    rw [div_le_div_iff_of_pos_right hpos, dcg_take_eq_sum, dcg_take_eq_sum,
      length_swapRanks]
    exact sum_swapRanks_le relevant l i j (min k l.length) hij hj hni hrj
  · simp only [calculate_ndcg, if_neg hpos]
    exact le_refl 0

/-- C9 witness: `["x", "a"]` with `"a"` relevant, swapped to the front. -/
theorem ndcg_swap_earlier_mono_witness :
    swapRanks [⟨"x"⟩, ⟨"a"⟩] 0 1 = [⟨"a"⟩, ⟨"x"⟩] ∧
    calculate_ndcg [⟨"x"⟩, ⟨"a"⟩] ["a"] 5 ≤
      calculate_ndcg (swapRanks [⟨"x"⟩, ⟨"a"⟩] 0 1) ["a"] 5 :=
  ⟨rfl, ndcg_swap_earlier_mono [⟨"x"⟩, ⟨"a"⟩] ["a"] 5 0 1 (by decide) (by decide)
    (by decide) (by decide) (by decide)⟩

/-! ## Claims about the benchmark metrics -/

/-- C7: metric boundary values: `precision@k` of an empty retrieved list
is 0 for every `k > 0`; `recall@k` with an empty relevant list is 0 (a
returned value, never a failed division); MRR is 0 when no relevant id
occurs in the retrieved list, and 1 when the first retrieved document's
id is relevant. -/
theorem metric_boundary_values :
    (∀ (relevant : List String) (k : Nat), 0 < k →
        calculate_precision_at_k [] relevant k = some 0) ∧
    (∀ (retrieved : List RDoc) (k : Nat),
        calculate_recall_at_k retrieved [] k = some 0) ∧
    (∀ (retrieved : List RDoc) (relevant : List String),
        (∀ r ∈ retrieved, r.id ∉ relevant) →
        calculate_mrr retrieved relevant = some 0) ∧
    (∀ (d : RDoc) (rest : List RDoc) (relevant : List String),
        d.id ∈ relevant → calculate_mrr (d :: rest) relevant = some 1) := by
  refine ⟨?_, ?_, ?_, ?_⟩
  · intro relevant k hk
    have hk' : ((k : ℚ)) ≠ 0 := by exact_mod_cast hk.ne'
    simp [calculate_precision_at_k, pydiv, hk, hk']
  · intro retrieved k
    rfl
  · intro retrieved relevant h
    exact mrrLoop_no_hit relevant retrieved 1 h
  · intro d rest relevant h
    simp [calculate_mrr, mrrLoop, h, pydiv]

/-- C7 witness: the four conjuncts at concrete inputs. -/
theorem metric_boundary_values_witness :
    calculate_precision_at_k [] ["a"] 3 = some 0 ∧
    calculate_recall_at_k [⟨"a"⟩] [] 5 = some 0 ∧
    calculate_mrr [⟨"b"⟩] ["a"] = some 0 ∧
    calculate_mrr [⟨"a"⟩, ⟨"b"⟩] ["a"] = some 1 :=
  ⟨metric_boundary_values.1 ["a"] 3 (by decide),
   metric_boundary_values.2.1 [⟨"a"⟩] 5,
   metric_boundary_values.2.2.1 [⟨"b"⟩] ["a"] (by decide),
   metric_boundary_values.2.2.2 ⟨"a"⟩ [⟨"b"⟩] ["a"] (by decide)⟩

/-- C10: `calculate_precision_at_k` is total in `k`: `k = 0` takes the
explicit `else 0` branch instead of dividing, and for `k > 0` the divisor
is nonzero, so no input makes the (fallible) division fail. -/
theorem precision_total_in_k :
    ∀ (retrieved : List RDoc) (relevant : List String) (k : Nat),
      (calculate_precision_at_k retrieved relevant k).isSome = true ∧
      calculate_precision_at_k retrieved relevant 0 = some 0 := by
  intro retrieved relevant k
  constructor
  · by_cases hk : 0 < k
    · have hk' : ((k : ℚ)) ≠ 0 := by exact_mod_cast hk.ne'
      simp [calculate_precision_at_k, pydiv, hk, hk']
    · simp [calculate_precision_at_k, hk]
  · rfl

/-- C5: requesting aggregation on an empty accumulator yields the explicit
error outcome (never a normal aggregate), and the call leaves the
accumulator state unchanged. -/
theorem empty_accumulator_is_error :
    ∀ st : BenchState,
      (st.results = [] →
        (get_aggregated_metrics st).1 = .error "No results to aggregate") ∧
      (get_aggregated_metrics st).2 = st := by
  intro st
  constructor
  · intro h
    simp [get_aggregated_metrics, h]
  · rcases st with ⟨l⟩
    cases l <;> simp [get_aggregated_metrics]

/-- C5 witness: the empty accumulator. -/
theorem empty_accumulator_is_error_witness :
    (get_aggregated_metrics ⟨[]⟩).1 = .error "No results to aggregate" ∧
    (get_aggregated_metrics ⟨[]⟩).2 = (⟨[]⟩ : BenchState) :=
  ⟨(empty_accumulator_is_error ⟨[]⟩).1 rfl, (empty_accumulator_is_error ⟨[]⟩).2⟩

/-- C8: extraction is pure and deterministic: the extracted record is a
function of the `content` field alone, and the call leaves every input
field unchanged in the returned record. -/
theorem extraction_pure_deterministic :
    (∀ c₁ c₂ : ChunkRec, c₁.content = c₂.content →
        (extract_chunk_metadata c₁).extracted_metadata =
          (extract_chunk_metadata c₂).extracted_metadata) ∧
    (∀ c : ChunkRec, (extract_chunk_metadata c).id = c.id ∧
        (extract_chunk_metadata c).content = c.content) := by
  refine ⟨fun c₁ c₂ h => ?_, fun c => ⟨rfl, rfl⟩⟩
  simp [extract_chunk_metadata, h]

/-- C8 witness: two records equal in content, different elsewhere. -/
theorem extraction_pure_deterministic_witness :
    (extract_chunk_metadata ⟨"p", ['p', 'H', ' ', '7'], none⟩).extracted_metadata =
      (extract_chunk_metadata ⟨"q", ['p', 'H', ' ', '7'],
        some (extractMetadata [])⟩).extracted_metadata :=
  extraction_pure_deterministic.1 _ _ rfl

/-- C3 fails on the code: recall@k divides by `len(relevant)` with
multiplicity, and the ideal DCG of NDCG sums over `min(len(relevant), k)`
ranks, so a duplicated relevant id changes both; here `["a", "a"]`
versus its deduplication `["a"]`. -/
theorem duplicate_relevant_counterexample :
    (["a", "a"].dedup = ["a"]) ∧
    calculate_recall_at_k [⟨"a"⟩] ["a", "a"] 1 ≠
      calculate_recall_at_k [⟨"a"⟩] ["a"] 1 ∧
    calculate_ndcg [⟨"a"⟩] ["a", "a"] 2 ≠ calculate_ndcg [⟨"a"⟩] ["a"] 2 := by
  have hrec : calculate_recall_at_k [⟨"a"⟩] ["a", "a"] 1 = some (1 / 2) := by
    norm_num [calculate_recall_at_k, pydiv, List.countP_cons, List.countP_nil]
  have hrec' : calculate_recall_at_k [⟨"a"⟩] ["a"] 1 = some 1 := by
    norm_num [calculate_recall_at_k, pydiv, List.countP_cons, List.countP_nil]
  refine ⟨by decide, by rw [hrec, hrec']; norm_num, ?_⟩
  have h2 : Real.logb 2 2 = 1 := Real.logb_self_eq_one (by norm_num)
  have h3 : 0 < Real.logb 2 3 := Real.logb_pos (by norm_num) (by norm_num)
  have hdcg : dcgLoop ["a", "a"] (([⟨"a"⟩] : List RDoc).take 2) 1 = 1 := by
    norm_num [dcgLoop, h2]
  have hdcg' : dcgLoop ["a"] (([⟨"a"⟩] : List RDoc).take 2) 1 = 1 := by
    norm_num [dcgLoop, h2]
  have hidcg : idcg ["a", "a"] 2 = 1 + 1 / Real.logb 2 3 := by
    norm_num [idcg, Finset.sum_range_succ, h2]
  have hidcg' : idcg ["a"] 2 = 1 := by
    norm_num [idcg, Finset.sum_range_succ, h2]
  have hpos : (0 : ℝ) < 1 + 1 / Real.logb 2 3 := by positivity
  have e1 : calculate_ndcg [⟨"a"⟩] ["a", "a"] 2 = 1 / (1 + 1 / Real.logb 2 3) := by
    simp only [calculate_ndcg, hidcg, hdcg, if_pos hpos]
  have e2 : calculate_ndcg [⟨"a"⟩] ["a"] 2 = 1 := by
    simp only [calculate_ndcg, hidcg', hdcg', if_pos (by norm_num : (0 : ℝ) < 1)]
    norm_num
  rw [e1, e2]
  have hlt : 1 / (1 + 1 / Real.logb 2 3) < 1 := by
    rw [div_lt_one hpos]
    have : 0 < 1 / Real.logb 2 3 := by positivity
    linarith
  exact ne_of_lt hlt

/-- C3 amended: duplicates in `relevant_ids` are tolerated (no failure)
and are set-like for precision@k and MRR, whose computations test only
membership; recall@k and NDCG@k do change under deduplication. -/
theorem precision_mrr_duplicate_insensitive :
    ∀ (retrieved : List RDoc) (relevant : List String) (k : Nat),
      calculate_precision_at_k retrieved relevant.dedup k =
        calculate_precision_at_k retrieved relevant k ∧
      calculate_mrr retrieved relevant.dedup = calculate_mrr retrieved relevant := by
  intro retrieved relevant k
  constructor
  · simp only [calculate_precision_at_k, List.mem_dedup]
  · exact mrrLoop_dedup relevant retrieved 1
